import Mathlib

/-!
Shallow embedding of `registry/storage/cache/memory.go` from
docker/distribution: a two-tier in-memory cache mapping content digests to
blob descriptors.  The Go file defines three components:

* `mapBlobDescriptorCache` — a mutex-guarded `map[digest.Digest]Descriptor`,
  embedded here as an association list `DescMap` with `Stat`/`SetDescriptor`;
* `inMemoryBlobDescriptorCacheProvider` — owns the global leaf cache and the
  repository-name → leaf-cache table, embedded as `CacheState`;
* `repositoryScopedInMemoryBlobDescriptorCache` — a per-repository view
  holding a possibly-nil pointer to its repository's leaf cache, embedded
  as `RepoView` with the pointer represented as an optional heap index.

Pointer aliasing between a view's `repository` field and the provider's
table entry is modelled with an explicit heap (`CacheState.heap`, a list of
leaf caches indexed by allocation order).  Mutating operations thread the
state explicitly and return the error alongside the new state, so a write
that partially succeeds keeps its partial effect, exactly as the in-place
Go mutations do.
-/

/-- A content digest, carrying its algorithm tag and hex value.  The Go
`digest.Digest` is the string `algorithm ++ ":" ++ hex`; the two components
are kept separate here, so `Digest.algorithm` plays the role of
`digest.Digest.Algorithm()` and equality of the records coincides with
equality of the Go strings for well-formed digests. -/
structure Digest where
  algorithm : String
  hex : String
deriving DecidableEq, Repr

/-- A blob descriptor (`distribution.Descriptor`): media type, size and the
canonical digest of the content. -/
structure Descriptor where
  mediaType : String
  size : Int
  digest : Digest
deriving DecidableEq, Repr

/-- The errors surfaced by the cache, following the spec's error kinds.
`blobUnknown` is `distribution.ErrBlobUnknown`; the others are the failures
of the three validators. -/
inductive CacheError where
  | blobUnknown
  | invalidDigest
  | invalidDescriptor
  | invalidRepositoryName
deriving DecidableEq, Repr

deriving instance DecidableEq for Except

/-- Modelled from the spec: digest syntax validation (`validateDigest`,
whose body is not part of the repository slice; the spec describes it only
as a pure syntactic precondition check).  A digest is well-formed when both
its algorithm tag and its hex value are nonempty. -/
def validDigest (d : Digest) : Bool :=
  d.algorithm ≠ "" && d.hex ≠ ""

/-- Modelled from the spec: descriptor validation (`validateDescriptor`,
whose body is not part of the repository slice).  Per the spec it "at
minimum checks the descriptor's digest is itself well-formed and
non-empty". -/
def validDescriptor (v : Descriptor) : Bool :=
  validDigest v.digest

/-- Modelled from the spec: repository-name namespace validation
(`v2.ValidateRepositoryName`, whose body is not part of the repository
slice; the spec treats it as an opaque syntactic precondition check).
Abstracted as nonemptiness of the name. -/
def validRepoName (r : String) : Bool :=
  r ≠ ""

/-- The contents of one `mapBlobDescriptorCache`: its
`map[digest.Digest]Descriptor` as an association list. -/
abbrev DescMap := List (Digest × Descriptor)

/-- Map lookup, `m.descriptors[dgst]`. -/
def DescMap.find : DescMap → Digest → Option Descriptor
  | [], _ => none
  | (k, w) :: rest, d => if k = d then some w else DescMap.find rest d

/-- Map store with overwrite, `m.descriptors[dgst] = desc`. -/
def DescMap.store : DescMap → Digest → Descriptor → DescMap
  | [], d, v => [(d, v)]
  | (k, w) :: rest, d, v =>
      if k = d then (d, v) :: rest else (k, w) :: DescMap.store rest d v

/-- `mapBlobDescriptorCache.Stat`: validate the digest, then look it up;
absence is `ErrBlobUnknown`. -/
def mapStat (m : DescMap) (dgst : Digest) : Except CacheError Descriptor :=
  if validDigest dgst then
    match m.find dgst with
    | none => .error .blobUnknown
    | some desc => .ok desc
  else
    .error .invalidDigest

/-- `mapBlobDescriptorCache.SetDescriptor`: validate digest then descriptor,
then store unconditionally (last write wins).  Returns the new map together
with the error, if any; a failed call leaves the map untouched. -/
def mapSetDescriptor (m : DescMap) (dgst : Digest) (desc : Descriptor) :
    DescMap × Option CacheError :=
  if validDigest dgst then
    if validDescriptor desc then
      (m.store dgst desc, none)
    else
      (m, some .invalidDescriptor)
  else
    (m, some .invalidDigest)

/-- The state owned by one `inMemoryBlobDescriptorCacheProvider`:

* `global` — the global leaf cache's contents;
* `heap` — the leaf caches ever allocated for repositories, indexed by
  allocation order (a heap cell stands for one `*mapBlobDescriptorCache`);
* `repositories` — the `map[string]*mapBlobDescriptorCache` table, each
  entry binding a repository name to a heap index. -/
structure CacheState where
  global : DescMap
  heap : List DescMap
  repositories : List (String × Nat)
deriving DecidableEq, Repr

/-- The state of a fresh provider, as built by
`NewInMemoryBlobDescriptorCacheProvider`: empty global cache, no
per-repository caches. -/
def initState : CacheState :=
  { global := [], heap := [], repositories := [] }

/-- Dereference a heap index; out-of-range reads yield the empty cache
(such indices never arise for states reachable through the interface). -/
def heapGet : List DescMap → Nat → DescMap
  | [], _ => []
  | m :: _, 0 => m
  | _ :: rest, n + 1 => heapGet rest n

/-- Write through a heap index (no-op when out of range). -/
def heapSet : List DescMap → Nat → DescMap → List DescMap
  | [], _, _ => []
  | _ :: rest, 0, m => m :: rest
  | x :: rest, n + 1, m => x :: heapSet rest n m

/-- Table lookup, `imbdcp.repositories[repo]`: `none` plays the role of the
nil pointer returned for an absent key. -/
def findRepo : List (String × Nat) → String → Option Nat
  | [], _ => none
  | (n, i) :: rest, r => if n = r then some i else findRepo rest r

/-- `imbdcp.repositories[repo]` on a provider state. -/
def lookupRepo (s : CacheState) (r : String) : Option Nat :=
  findRepo s.repositories r

/-- `repositoryScopedInMemoryBlobDescriptorCache`: the repository name, and
the view's captured pointer to its repository's leaf cache (`none` = nil). -/
structure RepoView where
  repo : String
  repository : Option Nat
deriving DecidableEq, Repr

/-- `inMemoryBlobDescriptorCacheProvider.Stat`: delegate to the global leaf
cache. -/
def providerStat (s : CacheState) (dgst : Digest) : Except CacheError Descriptor :=
  mapStat s.global dgst

/-- `inMemoryBlobDescriptorCacheProvider.SetDescriptor`: look the digest up
in the global cache first.  Only when that lookup fails with
`ErrBlobUnknown` is anything written: if the requested digest and the
descriptor's digest differ in algorithm and differ as digests (the source's
`&&` condition), the descriptor is first stored under its own canonical
digest, then under the requested digest.  A successful lookup, or any other
lookup error, leaves the cache untouched and returns that lookup's error
value (`nil` on success). -/
def providerSetDescriptor (s : CacheState) (dgst : Digest) (desc : Descriptor) :
    CacheState × Option CacheError :=
  match providerStat s dgst with
  | .error .blobUnknown =>
      if dgst.algorithm ≠ desc.digest.algorithm ∧ dgst ≠ desc.digest then
        match mapSetDescriptor s.global desc.digest desc with
        | (_, some e) => (s, some e)
        | (g1, none) =>
            match mapSetDescriptor g1 dgst desc with
            | (_, some e) => ({ s with global := g1 }, some e)
            | (g2, none) => ({ s with global := g2 }, none)
      else
        match mapSetDescriptor s.global dgst desc with
        | (_, some e) => (s, some e)
        | (g2, none) => ({ s with global := g2 }, none)
  | .error e => (s, some e)
  | .ok _ => (s, none)

/-- `inMemoryBlobDescriptorCacheProvider.RepositoryScoped`: validate the
repository name, then hand out a view capturing the current table entry for
that name (nil when absent).  The table is only read, never written, so the
operation returns no new state. -/
def repositoryScoped (s : CacheState) (repo : String) :
    Except CacheError RepoView :=
  if validRepoName repo then
    .ok { repo := repo, repository := lookupRepo s repo }
  else
    .error .invalidRepositoryName

/-- `repositoryScopedInMemoryBlobDescriptorCache.Stat`: a view with a nil
backing cache fails immediately with `ErrBlobUnknown`; otherwise it
delegates to the backing leaf cache. -/
def viewStat (s : CacheState) (w : RepoView) (dgst : Digest) :
    Except CacheError Descriptor :=
  match w.repository with
  | none => .error .blobUnknown
  | some i => mapStat (heapGet s.heap i) dgst

/-- The `rsimbdcp.repository == nil` block of
`repositoryScopedInMemoryBlobDescriptorCache.SetDescriptor`: when the
view's backing pointer is nil, re-read the provider table under the lock
and adopt an existing leaf cache for this repository, or allocate and
register a fresh one.  Returns the (possibly extended) provider state, the
view with its pointer bound, and the bound heap index. -/
def repoEnsureBound (s : CacheState) (w : RepoView) :
    CacheState × RepoView × Nat :=
  match w.repository with
  | some i => (s, w, i)
  | none =>
      match lookupRepo s w.repo with
      | some i => (s, { w with repository := some i }, i)
      | none =>
          let i := s.heap.length
          ({ s with
              heap := s.heap ++ [[]],
              repositories := s.repositories ++ [(w.repo, i)] },
           { w with repository := some i }, i)

/-- `repositoryScopedInMemoryBlobDescriptorCache.SetDescriptor`: bind the
backing leaf cache if nil (`repoEnsureBound`), then write to the backing
leaf cache; a failed leaf write is returned without touching the global
cache, and a successful one is mirrored through the provider's
`SetDescriptor`.  Returns the new provider state, the updated view (its
pointer may have become bound), and the error, if any. -/
def viewSetDescriptor (s : CacheState) (w : RepoView) (dgst : Digest)
    (desc : Descriptor) : CacheState × RepoView × Option CacheError :=
  match repoEnsureBound s w with
  | (s1, w1, i) =>
      match mapSetDescriptor (heapGet s1.heap i) dgst desc with
      | (_, some e) => (s1, w1, some e)
      | (m1, none) =>
          let s2 := { s1 with heap := heapSet s1.heap i m1 }
          match providerSetDescriptor s2 dgst desc with
          | (s3, e3) => (s3, w1, e3)

/-- One operation of the public interface.  `setView i _ _` and
`statView i _` act through the `i`-th view created so far; an out-of-range
view index makes the operation a no-op. -/
inductive Op where
  | statGlobal (dgst : Digest)
  | setGlobal (dgst : Digest) (desc : Descriptor)
  | scope (repo : String)
  | statView (v : Nat) (dgst : Digest)
  | setView (v : Nat) (dgst : Digest) (desc : Descriptor)
deriving DecidableEq, Repr

/-- A provider state together with the views handed out so far. -/
structure World where
  state : CacheState
  views : List RepoView
deriving DecidableEq, Repr

/-- The world of a fresh provider with no views. -/
def initWorld : World :=
  { state := initState, views := [] }

/-- Fetch the `i`-th view of a world. -/
def getView : List RepoView → Nat → Option RepoView
  | [], _ => none
  | w :: _, 0 => some w
  | _ :: rest, n + 1 => getView rest n

/-- Replace the `i`-th view of a world (no-op when out of range). -/
def setViewAt : List RepoView → Nat → RepoView → List RepoView
  | [], _, _ => []
  | _ :: rest, 0, w => w :: rest
  | x :: rest, n + 1, w => x :: setViewAt rest n w

/-- Execute one public-interface operation on a world.  Reads leave the
world unchanged; `scoped` appends the new view on success; `setView`
updates both the provider state and the acting view (whose pointer may
become bound). -/
def step (w : World) : Op → World
  | .statGlobal _ => w
  | .setGlobal dgst desc =>
      { w with state := (providerSetDescriptor w.state dgst desc).1 }
  | .scope repo =>
      match repositoryScoped w.state repo with
      | .ok vw => { w with views := w.views ++ [vw] }
      | .error _ => w
  | .statView _ _ => w
  | .setView i dgst desc =>
      match getView w.views i with
      | none => w
      | some vw =>
          match viewSetDescriptor w.state vw dgst desc with
          | (s', vw', _) => { state := s', views := setViewAt w.views i vw' }

/-- Execute a sequence of public-interface operations. -/
def run (w : World) : List Op → World
  | [] => w
  | op :: rest => run (step w op) rest

/-! ## Well-formedness and invariant predicates -/

/-- Every table entry points inside the heap.  Holds for every state
reachable through the interface. -/
def stateWF (s : CacheState) : Bool :=
  s.repositories.all fun p => decide (p.2 < s.heap.length)

/-- A view's captured pointer, when bound, points inside the heap. -/
def viewWF (s : CacheState) (w : RepoView) : Bool :=
  match w.repository with
  | none => true
  | some i => decide (i < s.heap.length)

/-- The spec's per-leaf-cache invariant: an entry's value's digest, when of
the same algorithm as the key, equals the key. -/
def leafInv (m : DescMap) : Prop :=
  ∀ p ∈ m, p.2.digest.algorithm = p.1.algorithm → p.2.digest = p.1

/-- The leaf invariant, for the global leaf cache and every allocated
per-repository leaf cache. -/
def stateInv (s : CacheState) : Prop :=
  leafInv s.global ∧ ∀ m ∈ s.heap, leafInv m

/-- No descriptor-map contents changed between two states: the global leaf
cache and every heap cell (present or virtual-empty) hold the same
entries.  The repository table may still differ — allocation of a fresh
empty leaf cache is invisible to this predicate. -/
def noDescChange (s s' : CacheState) : Prop :=
  s'.global = s.global ∧ ∀ j, heapGet s'.heap j = heapGet s.heap j

/-! ## Association-list lemmas -/

theorem DescMap.find_store_self (m : DescMap) (d : Digest) (v : Descriptor) :
    (m.store d v).find d = some v := by
  induction m with
  | nil => simp [DescMap.store, DescMap.find]
  | cons p rest ih =>
      obtain ⟨k, w⟩ := p
      by_cases h : k = d
      · simp [DescMap.store, h, DescMap.find]
      · simp [DescMap.store, h, DescMap.find, ih]

theorem DescMap.find_store_ne (m : DescMap) (d d' : Digest) (v : Descriptor)
    (h : d' ≠ d) : (m.store d v).find d' = m.find d' := by
  induction m with
  | nil => simp [DescMap.store, DescMap.find, Ne.symm h]
  | cons p rest ih =>
      obtain ⟨k, w⟩ := p
      by_cases hk : k = d
      · subst hk
        simp [DescMap.store, DescMap.find, Ne.symm h]
      · simp [DescMap.store, hk, DescMap.find, ih]

theorem DescMap.mem_store (m : DescMap) (d : Digest) (v : Descriptor)
    (p : Digest × Descriptor) (hp : p ∈ m.store d v) : p ∈ m ∨ p = (d, v) := by
  induction m with
  | nil =>
      simp [DescMap.store] at hp
      exact Or.inr hp
  | cons q rest ih =>
      obtain ⟨k, w⟩ := q
      by_cases hk : k = d
      · simp [DescMap.store, hk] at hp
        rcases hp with hp | hp
        · exact Or.inr (by simp [hp])
        · exact Or.inl (List.mem_cons_of_mem _ hp)
      · simp [DescMap.store, hk] at hp
        rcases hp with hp | hp
        · exact Or.inl (by simp [hp])
        · rcases ih hp with h | h
          · exact Or.inl (List.mem_cons_of_mem _ h)
          · exact Or.inr h

/-! ## Heap lemmas -/

theorem heapGet_heapSet_self (h : List DescMap) (i : Nat) (m : DescMap)
    (hi : i < h.length) : heapGet (heapSet h i m) i = m := by
  induction h generalizing i with
  | nil => simp at hi
  | cons x rest ih =>
      cases i with
      | zero => simp [heapSet, heapGet]
      | succ n =>
          simp only [heapSet, heapGet]
          exact ih n (by simpa using hi)

theorem heapGet_heapSet_ne (h : List DescMap) (i j : Nat) (m : DescMap)
    (hij : j ≠ i) : heapGet (heapSet h i m) j = heapGet h j := by
  induction h generalizing i j with
  | nil => simp [heapSet]
  | cons x rest ih =>
      cases i with
      | zero =>
          cases j with
          | zero => exact absurd rfl hij
          | succ n => simp [heapSet, heapGet]
      | succ k =>
          cases j with
          | zero => simp [heapSet, heapGet]
          | succ n =>
              simp only [heapSet, heapGet]
              exact ih k n (fun hnk => hij (by simp [hnk]))

theorem heapGet_append_nil (h : List DescMap) (j : Nat) :
    heapGet (h ++ [[]]) j = heapGet h j := by
  induction h generalizing j with
  | nil => cases j <;> simp [heapGet]
  | cons x rest ih =>
      cases j with
      | zero => simp [heapGet]
      | succ n => simpa [heapGet] using ih n

theorem heapGet_append_len (h : List DescMap) (m : DescMap) :
    heapGet (h ++ [m]) h.length = m := by
  induction h with
  | nil => simp [heapGet]
  | cons x rest ih => simpa [heapGet] using ih

theorem mem_heapSet (h : List DescMap) (i : Nat) (m m' : DescMap)
    (hp : m' ∈ heapSet h i m) : m' ∈ h ∨ m' = m := by
  induction h generalizing i with
  | nil => simp [heapSet] at hp
  | cons x rest ih =>
      cases i with
      | zero =>
          simp [heapSet] at hp
          rcases hp with hp | hp
          · exact Or.inr hp
          · exact Or.inl (List.mem_cons_of_mem _ hp)
      | succ n =>
          simp [heapSet] at hp
          rcases hp with hp | hp
          · exact Or.inl (by simp [hp])
          · rcases ih n hp with h1 | h1
            · exact Or.inl (List.mem_cons_of_mem _ h1)
            · exact Or.inr h1

theorem heapGet_mem_or_nil (h : List DescMap) (i : Nat) :
    heapGet h i ∈ h ∨ heapGet h i = [] := by
  induction h generalizing i with
  | nil => simp [heapGet]
  | cons x rest ih =>
      cases i with
      | zero => simp [heapGet]
      | succ n =>
          rcases ih n with h1 | h1
          · exact Or.inl (List.mem_cons_of_mem _ (by simpa [heapGet] using h1))
          · simp [heapGet, h1]

/-! ## Repository-table lemmas -/

theorem findRepo_append_of_some (l l2 : List (String × Nat)) (r : String)
    (i : Nat) (h : findRepo l r = some i) : findRepo (l ++ l2) r = some i := by
  induction l with
  | nil => simp [findRepo] at h
  | cons p rest ih =>
      obtain ⟨n, k⟩ := p
      by_cases hn : n = r
      · simpa [findRepo, hn] using (by simpa [findRepo, hn] using h)
      · simp [findRepo, hn] at h ⊢
        exact ih h

theorem findRepo_append_self (l : List (String × Nat)) (r : String) (i : Nat)
    (h : findRepo l r = none) : findRepo (l ++ [(r, i)]) r = some i := by
  induction l with
  | nil => simp [findRepo]
  | cons p rest ih =>
      obtain ⟨n, k⟩ := p
      by_cases hn : n = r
      · simp [findRepo, hn] at h
      · simp [findRepo, hn] at h ⊢
        exact ih h

theorem findRepo_mem (l : List (String × Nat)) (r : String) (i : Nat)
    (h : findRepo l r = some i) : (r, i) ∈ l := by
  induction l with
  | nil => simp [findRepo] at h
  | cons p rest ih =>
      obtain ⟨n, k⟩ := p
      by_cases hn : n = r
      · simp [findRepo, hn] at h
        simp [hn, h]
      · simp [findRepo, hn] at h
        exact List.mem_cons_of_mem _ (ih h)

/-! ## Characterizations of the provider's `SetDescriptor` -/

theorem providerStat_valid (s : CacheState) (d : Digest)
    (hd : validDigest d = true) :
    providerStat s d =
      (match s.global.find d with
       | none => .error .blobUnknown
       | some u => .ok u) := by
  simp [providerStat, mapStat, hd]

theorem providerSet_invalid_digest (s : CacheState) (d : Digest)
    (v : Descriptor) (hd : validDigest d = false) :
    providerSetDescriptor s d v = (s, some .invalidDigest) := by
  simp [providerSetDescriptor, providerStat, mapStat, hd]

theorem providerSet_of_find_some (s : CacheState) (d : Digest)
    (v u : Descriptor) (hd : validDigest d = true)
    (hf : s.global.find d = some u) :
    providerSetDescriptor s d v = (s, none) := by
  simp [providerSetDescriptor, providerStat_valid s d hd, hf]

theorem providerSet_of_find_none (s : CacheState) (d : Digest)
    (v : Descriptor) (hd : validDigest d = true)
    (hv : validDescriptor v = true) (hf : s.global.find d = none) :
    providerSetDescriptor s d v =
      (if d.algorithm ≠ v.digest.algorithm ∧ d ≠ v.digest then
        { s with global := (s.global.store v.digest v).store d v }
       else
        { s with global := s.global.store d v }, none) := by
  have hv' : validDigest v.digest = true := hv
  by_cases hc : d.algorithm ≠ v.digest.algorithm ∧ d ≠ v.digest
  · simp [providerSetDescriptor, providerStat_valid s d hd, hf, hc,
      mapSetDescriptor, hd, hv', validDescriptor]
  · simp [providerSetDescriptor, providerStat_valid s d hd, hf, hc,
      mapSetDescriptor, hd, hv', validDescriptor]

theorem providerSet_of_find_none_bad_desc (s : CacheState) (d : Digest)
    (v : Descriptor) (hd : validDigest d = true)
    (hv : validDescriptor v = false) (hf : s.global.find d = none) :
    providerSetDescriptor s d v =
      (s, some (if d.algorithm ≠ v.digest.algorithm ∧ d ≠ v.digest then
                  .invalidDigest
                else
                  .invalidDescriptor)) := by
  have hv' : validDigest v.digest = false := hv
  by_cases hc : d.algorithm ≠ v.digest.algorithm ∧ d ≠ v.digest
  · simp [providerSetDescriptor, providerStat_valid s d hd, hf, hc,
      mapSetDescriptor, hd, hv', validDescriptor]
  · simp [providerSetDescriptor, providerStat_valid s d hd, hf, hc,
      mapSetDescriptor, hd, hv', validDescriptor]

theorem providerSet_heap (s : CacheState) (d : Digest) (v : Descriptor) :
    (providerSetDescriptor s d v).1.heap = s.heap := by
  unfold providerSetDescriptor
  repeat' split
  all_goals rfl

theorem providerSet_repositories (s : CacheState) (d : Digest)
    (v : Descriptor) :
    (providerSetDescriptor s d v).1.repositories = s.repositories := by
  unfold providerSetDescriptor
  repeat' split
  all_goals rfl

theorem providerSet_success (s : CacheState) (d : Digest) (v : Descriptor)
    (hd : validDigest d = true) (hv : validDescriptor v = true) :
    (providerSetDescriptor s d v).2 = none := by
  cases hf : s.global.find d with
  | none => simp [providerSet_of_find_none s d v hd hv hf]
  | some u => simp [providerSet_of_find_some s d v u hd hf]

theorem providerSet_fresh_find (s : CacheState) (d : Digest) (v : Descriptor)
    (hd : validDigest d = true) (hv : validDescriptor v = true)
    (hf : s.global.find d = none) :
    (providerSetDescriptor s d v).1.global.find d = some v := by
  rw [providerSet_of_find_none s d v hd hv hf]
  by_cases hc : d.algorithm ≠ v.digest.algorithm ∧ d ≠ v.digest
  · simp [hc, DescMap.find_store_self]
  · simp [hc, DescMap.find_store_self]

/-! ## Characterizations of the view's operations -/

theorem repoEnsureBound_of_some (s : CacheState) (w : RepoView) (i : Nat)
    (hw : w.repository = some i) : repoEnsureBound s w = (s, w, i) := by
  simp [repoEnsureBound, hw]

theorem repoEnsureBound_of_lookup (s : CacheState) (w : RepoView) (i : Nat)
    (hw : w.repository = none) (hl : lookupRepo s w.repo = some i) :
    repoEnsureBound s w = (s, { w with repository := some i }, i) := by
  simp [repoEnsureBound, hw, hl]

theorem repoEnsureBound_fresh (s : CacheState) (w : RepoView)
    (hw : w.repository = none) (hl : lookupRepo s w.repo = none) :
    repoEnsureBound s w =
      ({ s with
          heap := s.heap ++ [[]],
          repositories := s.repositories ++ [(w.repo, s.heap.length)] },
       { w with repository := some s.heap.length }, s.heap.length) := by
  simp [repoEnsureBound, hw, hl]

theorem repoEnsureBound_repository (s : CacheState) (w : RepoView) :
    (repoEnsureBound s w).2.1.repository = some (repoEnsureBound s w).2.2 := by
  cases hw : w.repository with
  | some i => simp [repoEnsureBound_of_some s w i hw, hw]
  | none =>
      cases hl : lookupRepo s w.repo with
      | some i => simp [repoEnsureBound_of_lookup s w i hw hl]
      | none => simp [repoEnsureBound_fresh s w hw hl]

theorem repoEnsureBound_repo (s : CacheState) (w : RepoView) :
    (repoEnsureBound s w).2.1.repo = w.repo := by
  cases hw : w.repository with
  | some i => simp [repoEnsureBound_of_some s w i hw]
  | none =>
      cases hl : lookupRepo s w.repo with
      | some i => simp [repoEnsureBound_of_lookup s w i hw hl]
      | none => simp [repoEnsureBound_fresh s w hw hl]

theorem findRepo_append_ne (l : List (String × Nat)) (r r' : String) (i : Nat)
    (h : findRepo l r = none) (hne : r ≠ r') :
    findRepo (l ++ [(r', i)]) r = none := by
  induction l with
  | nil => simp [findRepo, Ne.symm hne]
  | cons p rest ih =>
      obtain ⟨n, k⟩ := p
      by_cases hn : n = r
      · simp [findRepo, hn] at h
      · simp [findRepo, hn] at h ⊢
        exact ih h

theorem repoEnsureBound_global (s : CacheState) (w : RepoView) :
    (repoEnsureBound s w).1.global = s.global := by
  cases hw : w.repository with
  | some i => simp [repoEnsureBound_of_some s w i hw]
  | none =>
      cases hl : lookupRepo s w.repo with
      | some i => simp [repoEnsureBound_of_lookup s w i hw hl]
      | none => simp [repoEnsureBound_fresh s w hw hl]

theorem repoEnsureBound_noDescChange (s : CacheState) (w : RepoView) :
    noDescChange s (repoEnsureBound s w).1 := by
  cases hw : w.repository with
  | some i => simp [repoEnsureBound_of_some s w i hw, noDescChange]
  | none =>
      cases hl : lookupRepo s w.repo with
      | some i => simp [repoEnsureBound_of_lookup s w i hw hl, noDescChange]
      | none =>
          rw [repoEnsureBound_fresh s w hw hl]
          exact ⟨rfl, fun j => heapGet_append_nil s.heap j⟩

theorem repoEnsureBound_repositories (s : CacheState) (w : RepoView) :
    (repoEnsureBound s w).1.repositories = s.repositories ∨
      (lookupRepo s w.repo = none ∧
        (repoEnsureBound s w).1.repositories =
          s.repositories ++ [(w.repo, s.heap.length)]) := by
  cases hw : w.repository with
  | some i => exact Or.inl (by simp [repoEnsureBound_of_some s w i hw])
  | none =>
      cases hl : lookupRepo s w.repo with
      | some i => exact Or.inl (by simp [repoEnsureBound_of_lookup s w i hw hl])
      | none => exact Or.inr ⟨rfl, by simp [repoEnsureBound_fresh s w hw hl]⟩

theorem repoEnsureBound_index_lt (s : CacheState) (w : RepoView)
    (hwf : stateWF s = true) (hvw : viewWF s w = true) :
    (repoEnsureBound s w).2.2 < (repoEnsureBound s w).1.heap.length := by
  cases hw : w.repository with
  | some i =>
      rw [repoEnsureBound_of_some s w i hw]
      simpa [viewWF, hw] using hvw
  | none =>
      cases hl : lookupRepo s w.repo with
      | some i =>
          rw [repoEnsureBound_of_lookup s w i hw hl]
          have hmem := findRepo_mem s.repositories w.repo i hl
          have := List.all_eq_true.mp hwf _ hmem
          simpa using this
      | none =>
          rw [repoEnsureBound_fresh s w hw hl]
          simp

theorem viewSet_repositories (s : CacheState) (w : RepoView) (d : Digest)
    (v : Descriptor) :
    (viewSetDescriptor s w d v).1.repositories =
      (repoEnsureBound s w).1.repositories := by
  unfold viewSetDescriptor
  cases hb : repoEnsureBound s w with
  | mk s1 p =>
      cases p with
      | mk w1 i =>
          cases hm : mapSetDescriptor (heapGet s1.heap i) d v with
          | mk m1 e =>
              cases e with
              | none => simp [hm, providerSet_repositories]
              | some e' => simp [hm]

theorem viewSet_fail (s : CacheState) (w : RepoView) (d : Digest)
    (v : Descriptor) (e : CacheError)
    (hm : ∀ m : DescMap, (mapSetDescriptor m d v).2 = some e) :
    (viewSetDescriptor s w d v).2.2 = some e ∧
      (viewSetDescriptor s w d v).1 = (repoEnsureBound s w).1 := by
  unfold viewSetDescriptor
  cases hb : repoEnsureBound s w with
  | mk s1 p =>
      cases p with
      | mk w1 i =>
          have hval := hm (heapGet s1.heap i)
          cases hmm : mapSetDescriptor (heapGet s1.heap i) d v with
          | mk m1 e1 =>
              rw [hmm] at hval
              simp at hval
              subst hval
              simp [hmm]

theorem viewSet_of_valid (s : CacheState) (w : RepoView) (d : Digest)
    (v : Descriptor) (hd : validDigest d = true)
    (hv : validDescriptor v = true) :
    viewSetDescriptor s w d v =
      ((providerSetDescriptor
          { (repoEnsureBound s w).1 with
            heap := heapSet (repoEnsureBound s w).1.heap (repoEnsureBound s w).2.2
                ((heapGet (repoEnsureBound s w).1.heap (repoEnsureBound s w).2.2).store d v) }
          d v).1,
       (repoEnsureBound s w).2.1,
       (providerSetDescriptor
          { (repoEnsureBound s w).1 with
            heap := heapSet (repoEnsureBound s w).1.heap (repoEnsureBound s w).2.2
                ((heapGet (repoEnsureBound s w).1.heap (repoEnsureBound s w).2.2).store d v) }
          d v).2) := by
  unfold viewSetDescriptor
  cases hb : repoEnsureBound s w with
  | mk s1 p =>
      cases p with
      | mk w1 i =>
          simp only [mapSetDescriptor, hd, hv, if_true]

theorem viewSet_valid_facts (s : CacheState) (w : RepoView) (d : Digest)
    (v : Descriptor) (hwf : stateWF s = true) (hvw : viewWF s w = true)
    (hd : validDigest d = true) (hv : validDescriptor v = true) :
    (viewSetDescriptor s w d v).2.2 = none ∧
      (viewSetDescriptor s w d v).2.1 = (repoEnsureBound s w).2.1 ∧
      heapGet (viewSetDescriptor s w d v).1.heap (repoEnsureBound s w).2.2 =
        (heapGet (repoEnsureBound s w).1.heap (repoEnsureBound s w).2.2).store d v ∧
      (s.global.find d = none →
        (viewSetDescriptor s w d v).1.global.find d = some v) := by
  rw [viewSet_of_valid s w d v hd hv]
  refine ⟨providerSet_success _ d v hd hv, rfl, ?_, ?_⟩
  · rw [providerSet_heap]
    exact heapGet_heapSet_self _ _ _ (repoEnsureBound_index_lt s w hwf hvw)
  · intro hfresh
    apply providerSet_fresh_find _ d v hd hv
    simpa [repoEnsureBound_global] using hfresh

/-! ## Preservation of the leaf invariant -/

theorem leafInv_nil : leafInv [] := by
  intro p hp
  simp at hp

theorem leafInv_store (m : DescMap) (d : Digest) (v : Descriptor)
    (hm : leafInv m) (hdv : v.digest.algorithm = d.algorithm → v.digest = d) :
    leafInv (m.store d v) := by
  intro p hp
  rcases DescMap.mem_store m d v p hp with h | h
  · exact hm p h
  · subst h
    simpa using hdv

theorem leafInv_mapSet (m : DescMap) (d : Digest) (v : Descriptor)
    (hm : leafInv m) (hdv : v.digest.algorithm = d.algorithm → v.digest = d) :
    leafInv (mapSetDescriptor m d v).1 := by
  unfold mapSetDescriptor
  cases h1 : validDigest d with
  | false => simpa [h1] using hm
  | true =>
      cases h2 : validDescriptor v with
      | false => simpa [h1, h2] using hm
      | true => simpa [h1, h2] using leafInv_store m d v hm hdv

/-- The side condition under which an operation's write respects the leaf
invariant: the descriptor's digest, when of the same algorithm as the
requested digest, equals it.  Reads and scoping carry no condition. -/
def opSameAlgOK : Op → Prop
  | .setGlobal d v => v.digest.algorithm = d.algorithm → v.digest = d
  | .setView _ d v => v.digest.algorithm = d.algorithm → v.digest = d
  | _ => True

instance : ∀ op : Op, Decidable (opSameAlgOK op)
  | .statGlobal _ => .isTrue trivial
  | .scope _ => .isTrue trivial
  | .statView _ _ => .isTrue trivial
  | .setGlobal d v =>
      inferInstanceAs (Decidable (v.digest.algorithm = d.algorithm → v.digest = d))
  | .setView _ d v =>
      inferInstanceAs (Decidable (v.digest.algorithm = d.algorithm → v.digest = d))

theorem stateInv_providerSet (s : CacheState) (d : Digest) (v : Descriptor)
    (hs : stateInv s) (hdv : v.digest.algorithm = d.algorithm → v.digest = d) :
    stateInv (providerSetDescriptor s d v).1 := by
  refine ⟨?_, ?_⟩
  · by_cases hd : validDigest d = true
    · cases hf : s.global.find d with
      | none =>
          by_cases hv : validDescriptor v = true
          · rw [providerSet_of_find_none s d v hd hv hf]
            by_cases hc : d.algorithm ≠ v.digest.algorithm ∧ d ≠ v.digest
            · simpa [hc] using
                leafInv_store _ d v
                  (leafInv_store _ v.digest v hs.1 (fun _ => rfl)) hdv
            · simpa [hc] using leafInv_store _ d v hs.1 hdv
          · rw [providerSet_of_find_none_bad_desc s d v hd
              (Bool.eq_false_iff.mpr (fun h => hv h)) hf]
            exact hs.1
      | some u =>
          rw [providerSet_of_find_some s d v u hd hf]
          exact hs.1
    · rw [providerSet_invalid_digest s d v (Bool.eq_false_iff.mpr (fun h => hd h))]
      exact hs.1
  · rw [providerSet_heap]
    exact hs.2

theorem stateInv_ensureBound (s : CacheState) (w : RepoView)
    (hs : stateInv s) : stateInv (repoEnsureBound s w).1 := by
  refine ⟨?_, ?_⟩
  · rw [repoEnsureBound_global]
    exact hs.1
  · cases hw : w.repository with
    | some i =>
        rw [repoEnsureBound_of_some s w i hw]
        exact hs.2
    | none =>
        cases hl : lookupRepo s w.repo with
        | some i =>
            rw [repoEnsureBound_of_lookup s w i hw hl]
            exact hs.2
        | none =>
            rw [repoEnsureBound_fresh s w hw hl]
            intro m hm
            simp at hm
            rcases hm with hm | hm
            · exact hs.2 m hm
            · subst hm
              exact leafInv_nil

theorem stateInv_viewSet (s : CacheState) (w : RepoView) (d : Digest)
    (v : Descriptor) (hs : stateInv s)
    (hdv : v.digest.algorithm = d.algorithm → v.digest = d) :
    stateInv (viewSetDescriptor s w d v).1 := by
  unfold viewSetDescriptor
  cases hb : repoEnsureBound s w with
  | mk s1 p =>
      cases p with
      | mk w1 i =>
          have hs1 : stateInv s1 := by
            have := stateInv_ensureBound s w hs
            rwa [hb] at this
          cases hmm : mapSetDescriptor (heapGet s1.heap i) d v with
          | mk m1 e1 =>
              cases e1 with
              | some e =>
                  simp only [hmm]
                  exact hs1
              | none =>
                  simp only [hmm]
                  apply stateInv_providerSet _ d v _ hdv
                  refine ⟨hs1.1, ?_⟩
                  intro m hm
                  rcases mem_heapSet s1.heap i m1 m hm with h | h
                  · exact hs1.2 m h
                  · subst h
                    have hbase : leafInv (heapGet s1.heap i) := by
                      rcases heapGet_mem_or_nil s1.heap i with h1 | h1
                      · exact hs1.2 _ h1
                      · rw [h1]
                        exact leafInv_nil
                    have := leafInv_mapSet (heapGet s1.heap i) d v hbase hdv
                    rwa [hmm] at this

theorem stateInv_step (w : World) (op : Op) (hs : stateInv w.state)
    (hop : opSameAlgOK op) : stateInv (step w op).state := by
  cases op with
  | statGlobal d => exact hs
  | statView n d => exact hs
  | setGlobal d v => exact stateInv_providerSet w.state d v hs hop
  | scope repo =>
      cases hr : repositoryScoped w.state repo with
      | ok vw =>
          simp only [step, hr]
          exact hs
      | error e =>
          simp only [step, hr]
          exact hs
  | setView n d v =>
      cases hg : getView w.views n with
      | none =>
          simp only [step, hg]
          exact hs
      | some vw =>
          cases hv : viewSetDescriptor w.state vw d v with
          | mk s' p =>
              cases p with
              | mk vw' e =>
                  have h2 := stateInv_viewSet w.state vw d v hs hop
                  rw [hv] at h2
                  simp only [step, hg, hv]
                  exact h2

theorem stateInv_run (w : World) (ops : List Op) (hs : stateInv w.state)
    (hops : ∀ op ∈ ops, opSameAlgOK op) : stateInv (run w ops).state := by
  induction ops generalizing w with
  | nil => exact hs
  | cons op rest ih =>
      exact ih (step w op) (stateInv_step w op hs (hops op (by simp)))
        (fun o ho => hops o (by simp [ho]))

/-! ## Monotonicity of the repository table -/

theorem lookupRepo_viewSet (s : CacheState) (w : RepoView) (d : Digest)
    (v : Descriptor) (r : String) (i : Nat)
    (h : lookupRepo s r = some i) :
    lookupRepo (viewSetDescriptor s w d v).1 r = some i := by
  unfold lookupRepo at h ⊢
  rw [viewSet_repositories]
  rcases repoEnsureBound_repositories s w with hrep | ⟨_, hrep⟩
  · rwa [hrep]
  · rw [hrep]
    exact findRepo_append_of_some _ _ _ _ h

theorem lookupRepo_step (w : World) (op : Op) (r : String) (i : Nat)
    (h : lookupRepo w.state r = some i) :
    lookupRepo (step w op).state r = some i := by
  cases op with
  | statGlobal d => exact h
  | statView n d => exact h
  | setGlobal d v =>
      simp only [step, lookupRepo, providerSet_repositories]
      exact h
  | scope repo =>
      cases hr : repositoryScoped w.state repo with
      | ok vw =>
          simp only [step, hr]
          exact h
      | error e =>
          simp only [step, hr]
          exact h
  | setView n d v =>
      cases hg : getView w.views n with
      | none =>
          simp only [step, hg]
          exact h
      | some vw =>
          cases hv : viewSetDescriptor w.state vw d v with
          | mk s' p =>
              cases p with
              | mk vw' e =>
                  have h2 := lookupRepo_viewSet w.state vw d v r i h
                  rw [hv] at h2
                  simp only [step, hg, hv]
                  exact h2

theorem lookupRepo_run (w : World) (ops : List Op) (r : String) (i : Nat)
    (h : lookupRepo w.state r = some i) :
    lookupRepo (run w ops).state r = some i := by
  induction ops generalizing w with
  | nil => exact h
  | cons op rest ih => exact ih (step w op) (lookupRepo_step w op r i h)

/-! ## Further helper lemmas -/

theorem viewStat_bound (s : CacheState) (w : RepoView) (i : Nat) (d : Digest)
    (hw : w.repository = some i) :
    viewStat s w d = mapStat (heapGet s.heap i) d := by
  simp [viewStat, hw]

theorem heapSet_length (h : List DescMap) (i : Nat) (m : DescMap) :
    (heapSet h i m).length = h.length := by
  induction h generalizing i with
  | nil => simp [heapSet]
  | cons x rest ih =>
      cases i with
      | zero => simp [heapSet]
      | succ n => simp [heapSet, ih]

theorem viewSet_heap_length (s : CacheState) (w : RepoView) (d : Digest)
    (v : Descriptor) :
    (viewSetDescriptor s w d v).1.heap.length =
      (repoEnsureBound s w).1.heap.length := by
  unfold viewSetDescriptor
  cases hb : repoEnsureBound s w with
  | mk s1 p =>
      cases p with
      | mk w1 i =>
          cases hmm : mapSetDescriptor (heapGet s1.heap i) d v with
          | mk m1 e1 =>
              cases e1 with
              | some e => simp [hmm]
              | none => simp [hmm, providerSet_heap, heapSet_length]

theorem stateWF_ensure (s : CacheState) (w : RepoView)
    (hwf : stateWF s = true) : stateWF (repoEnsureBound s w).1 = true := by
  cases hw : w.repository with
  | some i => rwa [repoEnsureBound_of_some s w i hw]
  | none =>
      cases hl : lookupRepo s w.repo with
      | some i => rwa [repoEnsureBound_of_lookup s w i hw hl]
      | none =>
          rw [repoEnsureBound_fresh s w hw hl]
          rw [stateWF] at hwf ⊢
          rw [List.all_eq_true] at hwf ⊢
          intro p hp
          simp only [List.mem_append, List.mem_singleton] at hp
          rcases hp with hp | hp
          · have := hwf p hp
            simp at this ⊢
            omega
          · subst hp
            simp

theorem stateWF_viewSet (s : CacheState) (w : RepoView) (d : Digest)
    (v : Descriptor) (hwf : stateWF s = true) :
    stateWF (viewSetDescriptor s w d v).1 = true := by
  have h1 := stateWF_ensure s w hwf
  rw [stateWF, List.all_eq_true]
  intro p hp
  rw [viewSet_repositories] at hp
  rw [stateWF, List.all_eq_true] at h1
  have := h1 p hp
  simp only [viewSet_heap_length]
  exact this

theorem viewSet_global_of_known (s : CacheState) (w : RepoView) (d : Digest)
    (v u : Descriptor) (hd : validDigest d = true)
    (hf : s.global.find d = some u) :
    (viewSetDescriptor s w d v).1.global = s.global := by
  unfold viewSetDescriptor
  cases hb : repoEnsureBound s w with
  | mk s1 p =>
      cases p with
      | mk w1 i =>
          have hg1 : s1.global = s.global := by
            have := repoEnsureBound_global s w
            rwa [hb] at this
          cases hmm : mapSetDescriptor (heapGet s1.heap i) d v with
          | mk m1 e1 =>
              cases e1 with
              | some e => simp [hmm, hg1]
              | none =>
                  have hf2 : ({ s1 with heap := heapSet s1.heap i m1 }
                      : CacheState).global.find d = some u := by
                    simpa [hg1] using hf
                  have hps := providerSet_of_find_some
                    { s1 with heap := heapSet s1.heap i m1 } d v u hd hf2
                  simp only [hmm]
                  rw [hps]
                  simpa using hg1

instance (m : DescMap) : Decidable (leafInv m) := by
  unfold leafInv
  infer_instance

instance (s : CacheState) : Decidable (stateInv s) := by
  unfold stateInv
  infer_instance

/-! ## The claims -/

/-- C1: the claim states that after `set(global, D, V)` with `V.digest = C`
and `C ≠ D` (differing in algorithm or in value), both `stat(global, D)`
and `stat(global, C)` return `V`.  The code's aliasing condition is
`dgst.Algorithm() != desc.Digest.Algorithm() && dgst != desc.Digest` while
its own comment reads "if the digests differ, set the other canonical
mapping", so for a same-algorithm, different-value pair the canonical entry
is never stored.  This theorem evaluates the code at the failing input
(`D = sha256:aa`, `C = sha256:bb` on a fresh provider): the set succeeds
and `stat(global, D)` returns `V`, but `stat(global, C)` fails with
`BlobUnknown`. -/
theorem C1_same_algorithm_alias_dropped :
    (providerSetDescriptor initState ⟨"sha256", "aa"⟩
        ⟨"m", 1, ⟨"sha256", "bb"⟩⟩).2 = none ∧
    providerStat (providerSetDescriptor initState ⟨"sha256", "aa"⟩
        ⟨"m", 1, ⟨"sha256", "bb"⟩⟩).1 ⟨"sha256", "aa"⟩ =
      .ok ⟨"m", 1, ⟨"sha256", "bb"⟩⟩ ∧
    providerStat (providerSetDescriptor initState ⟨"sha256", "aa"⟩
        ⟨"m", 1, ⟨"sha256", "bb"⟩⟩).1 ⟨"sha256", "bb"⟩ =
      .error .blobUnknown := by
  decide

/-- C6: first write wins at the global scope.  On a state where `D` is
unknown to the global cache, `set(global, D, V)` with valid inputs
succeeds and establishes `V`; a second `set(global, D, V2)` (any valid
`V2`) succeeds as a no-op, leaving both the state and `stat(global, D)`
at the original `V`.  Moreover any global-cache lookup error other than
`BlobUnknown` during `set` is propagated unchanged and nothing is
overwritten. -/
theorem C6_first_write_wins :
    (∀ (s : CacheState) (d : Digest) (v v2 : Descriptor),
        validDigest d = true → validDescriptor v = true →
        validDescriptor v2 = true → s.global.find d = none →
        (providerSetDescriptor s d v).2 = none ∧
          providerStat (providerSetDescriptor s d v).1 d = .ok v ∧
          providerSetDescriptor (providerSetDescriptor s d v).1 d v2 =
            ((providerSetDescriptor s d v).1, none)) ∧
    (∀ (s : CacheState) (d : Digest) (v : Descriptor) (e : CacheError),
        providerStat s d = .error e → e ≠ .blobUnknown →
        providerSetDescriptor s d v = (s, some e)) := by
  constructor
  · intro s d v v2 hd hv hv2 hf
    have hfind := providerSet_fresh_find s d v hd hv hf
    refine ⟨providerSet_success s d v hd hv, ?_, ?_⟩
    · rw [providerStat_valid _ d hd, hfind]
    · exact providerSet_of_find_some _ d v2 v hd hfind
  · intro s d v e hst hne
    unfold providerSetDescriptor
    rw [hst]
    cases e with
    | blobUnknown => exact absurd rfl hne
    | invalidDigest => rfl
    | invalidDescriptor => rfl
    | invalidRepositoryName => rfl

/-- Witness for C6 at concrete inputs: a first write of `V` under
`sha256:aa` on a fresh provider, a second write of a different `V2`, and
an invalid-digest lookup error propagated by `set`. -/
theorem C6_witness :
    ((providerSetDescriptor initState ⟨"sha256", "aa"⟩
        ⟨"m", 1, ⟨"sha256", "aa"⟩⟩).2 = none ∧
      providerStat (providerSetDescriptor initState ⟨"sha256", "aa"⟩
          ⟨"m", 1, ⟨"sha256", "aa"⟩⟩).1 ⟨"sha256", "aa"⟩ =
        .ok ⟨"m", 1, ⟨"sha256", "aa"⟩⟩ ∧
      providerSetDescriptor (providerSetDescriptor initState ⟨"sha256", "aa"⟩
          ⟨"m", 1, ⟨"sha256", "aa"⟩⟩).1 ⟨"sha256", "aa"⟩
          ⟨"m", 2, ⟨"sha256", "aa"⟩⟩ =
        ((providerSetDescriptor initState ⟨"sha256", "aa"⟩
          ⟨"m", 1, ⟨"sha256", "aa"⟩⟩).1, none)) ∧
    providerSetDescriptor initState ⟨"", ""⟩ ⟨"m", 1, ⟨"sha256", "aa"⟩⟩ =
      (initState, some .invalidDigest) :=
  ⟨C6_first_write_wins.1 initState ⟨"sha256", "aa"⟩
      ⟨"m", 1, ⟨"sha256", "aa"⟩⟩ ⟨"m", 2, ⟨"sha256", "aa"⟩⟩
      (by decide) (by decide) (by decide) (by decide),
   C6_first_write_wins.2 initState ⟨"", ""⟩ ⟨"m", 1, ⟨"sha256", "aa"⟩⟩
      .invalidDigest (by decide) (by decide)⟩

/-- C7 as stated is false: `set(global, D, V2)` also "succeeds" (returns
no error) when `D` is already known, without storing `V2`.  On the
reachable state obtained by first setting `V1` under `sha256:aa` on a
fresh provider, a second set of `V2` (valid, `V2.digest = D`, `V2 ≠ V1`)
succeeds, yet `stat(global, D)` still returns `V1`. -/
theorem C7_counterexample :
    (providerSetDescriptor (providerSetDescriptor initState ⟨"sha256", "aa"⟩
        ⟨"m", 1, ⟨"sha256", "aa"⟩⟩).1 ⟨"sha256", "aa"⟩
        ⟨"m", 2, ⟨"sha256", "aa"⟩⟩).2 = none ∧
    providerStat (providerSetDescriptor (providerSetDescriptor initState
        ⟨"sha256", "aa"⟩ ⟨"m", 1, ⟨"sha256", "aa"⟩⟩).1 ⟨"sha256", "aa"⟩
        ⟨"m", 2, ⟨"sha256", "aa"⟩⟩).1 ⟨"sha256", "aa"⟩ =
      .ok ⟨"m", 1, ⟨"sha256", "aa"⟩⟩ ∧
    (⟨"m", 1, ⟨"sha256", "aa"⟩⟩ : Descriptor) ≠ ⟨"m", 2, ⟨"sha256", "aa"⟩⟩ := by
  decide

/-- C7 amended: for every valid digest `D` and valid descriptor `V` with
`V.digest = D`, if `set(global, D, V)` succeeds on a state in which `D`
is unknown to the global cache, then `stat(global, D)` immediately
afterwards returns exactly `V`. -/
theorem C7_set_then_stat_fresh (s : CacheState) (d : Digest) (v : Descriptor)
    (hd : validDigest d = true) (hvd : v.digest = d)
    (hf : s.global.find d = none) :
    (providerSetDescriptor s d v).2 = none ∧
      providerStat (providerSetDescriptor s d v).1 d = .ok v := by
  have hv : validDescriptor v = true := by
    simpa [validDescriptor, hvd] using hd
  refine ⟨providerSet_success s d v hd hv, ?_⟩
  rw [providerStat_valid _ d hd, providerSet_fresh_find s d v hd hv hf]

/-- Witness for the amended C7 at a concrete fresh write. -/
theorem C7_witness :
    (providerSetDescriptor initState ⟨"sha256", "cc"⟩
        ⟨"m", 3, ⟨"sha256", "cc"⟩⟩).2 = none ∧
      providerStat (providerSetDescriptor initState ⟨"sha256", "cc"⟩
          ⟨"m", 3, ⟨"sha256", "cc"⟩⟩).1 ⟨"sha256", "cc"⟩ =
        .ok ⟨"m", 3, ⟨"sha256", "cc"⟩⟩ :=
  C7_set_then_stat_fresh initState ⟨"sha256", "cc"⟩ ⟨"m", 3, ⟨"sha256", "cc"⟩⟩
    (by decide) (by decide) (by decide)

/-- C8: for a syntactically valid repository name `R` never written to,
`scope_for_repository(R)` succeeds with an unbound view (no
`InvalidRepositoryName`; `repositoryScoped` returns no new state, so no
leaf cache is allocated as a side effect), and that view's `stat(D)` for a
valid digest `D` fails with `BlobUnknown`. -/
theorem C8_unwritten_repository_stat (s : CacheState) (r : String)
    (d : Digest) (hr : validRepoName r = true)
    (hl : lookupRepo s r = none) (_hd : validDigest d = true) :
    repositoryScoped s r = .ok ⟨r, none⟩ ∧
      viewStat s ⟨r, none⟩ d = .error .blobUnknown := by
  constructor
  · simp [repositoryScoped, hr, hl]
  · simp [viewStat]

/-- Witness for C8 on a fresh provider and repository "r". -/
theorem C8_witness :
    repositoryScoped initState "r" = .ok ⟨"r", none⟩ ∧
      viewStat initState ⟨"r", none⟩ ⟨"sha256", "aa"⟩ =
        .error .blobUnknown :=
  C8_unwritten_repository_stat initState "r" ⟨"sha256", "aa"⟩
    (by decide) (by decide) (by decide)

/-- C2 as stated is false: the code allocates and registers the
per-repository leaf cache *before* validating the write's inputs, so a
`SetDescriptor` whose digest fails validation (and therefore fails) still
binds the slot.  On a fresh provider, the view for "repo" performs a set
with the malformed digest `⟨"", ""⟩`: the call fails with `InvalidDigest`,
yet afterwards the provider's table has an entry for "repo". -/
theorem C2_counterexample :
    (viewSetDescriptor initState ⟨"repo", none⟩ ⟨"", ""⟩
        ⟨"m", 1, ⟨"sha256", "aa"⟩⟩).2.2 = some .invalidDigest ∧
    lookupRepo (viewSetDescriptor initState ⟨"repo", none⟩ ⟨"", ""⟩
        ⟨"m", 1, ⟨"sha256", "aa"⟩⟩).1 "repo" = some 0 ∧
    lookupRepo initState "repo" = none := by
  decide

/-- C2 amended: the per-repository leaf cache is created lazily at the
first `SetDescriptor` *call* for that repository — whether or not that
call's inputs validate — a view's `SetDescriptor` on an unregistered
repository always registers a fresh leaf cache under the next heap index;
and once a repository's slot is bound, it never returns to unbound: the
table binding survives every further sequence of interface operations. -/
theorem C2_lazy_allocation_and_persistence :
    (∀ (s : CacheState) (w : RepoView) (d : Digest) (v : Descriptor),
        w.repository = none → lookupRepo s w.repo = none →
        lookupRepo (viewSetDescriptor s w d v).1 w.repo =
          some s.heap.length) ∧
    (∀ (w : World) (ops : List Op) (r : String) (i : Nat),
        lookupRepo w.state r = some i →
        lookupRepo (run w ops).state r = some i) := by
  constructor
  · intro s w d v hw hl
    show findRepo (viewSetDescriptor s w d v).1.repositories w.repo =
      some s.heap.length
    rw [viewSet_repositories, repoEnsureBound_fresh s w hw hl]
    exact findRepo_append_self _ _ _ hl
  · exact fun w ops r i h => lookupRepo_run w ops r i h

/-- Witness for the amended C2: a failing set on a fresh provider still
registers "r" at heap index 0, and the binding survives a later global
write and a scoping call. -/
theorem C2_witness :
    lookupRepo (viewSetDescriptor initState ⟨"r", none⟩ ⟨"", ""⟩
        ⟨"m", 1, ⟨"sha256", "aa"⟩⟩).1 "r" = some initState.heap.length ∧
    lookupRepo (run ⟨⟨[], [[]], [("r", 0)]⟩, []⟩
        [Op.setGlobal ⟨"sha256", "aa"⟩ ⟨"m", 1, ⟨"sha256", "aa"⟩⟩,
         Op.scope "q"]).state "r" = some 0 :=
  ⟨C2_lazy_allocation_and_persistence.1 initState ⟨"r", none⟩ ⟨"", ""⟩
      ⟨"m", 1, ⟨"sha256", "aa"⟩⟩ rfl (by decide),
   C2_lazy_allocation_and_persistence.2 ⟨⟨[], [[]], [("r", 0)]⟩, []⟩
      [Op.setGlobal ⟨"sha256", "aa"⟩ ⟨"m", 1, ⟨"sha256", "aa"⟩⟩,
       Op.scope "q"] "r" 0 (by decide)⟩

/-- C3 as stated is false in two ways shown at one concrete input: on a
fresh provider, a repository-scoped set with a *valid* digest but
malformed descriptor fails with `InvalidDescriptor` as claimed, yet it
does **not** leave the provider's repository table unchanged — the leaf
cache for "repo" gets allocated and registered first. -/
theorem C3_counterexample :
    (viewSetDescriptor initState ⟨"repo", none⟩ ⟨"sha256", "aa"⟩
        ⟨"m", 1, ⟨"", ""⟩⟩).2.2 = some .invalidDescriptor ∧
    (viewSetDescriptor initState ⟨"repo", none⟩ ⟨"sha256", "aa"⟩
        ⟨"m", 1, ⟨"", ""⟩⟩).1.repositories = [("repo", 0)] ∧
    initState.repositories = [] := by
  decide

/-- C3 amended: with a malformed digest, `stat` fails with `InvalidDigest`
at the global scope and at bound repository views, while an *unbound*
view's `stat` fails with `BlobUnknown`; `set` fails with `InvalidDigest`
at every scope.  With a valid digest and malformed descriptor, a
repository-scoped `set` fails with `InvalidDescriptor`, while a global
`set` fails with `InvalidDigest` or `InvalidDescriptor` when the digest is
unknown and succeeds without writing when it is known.  In every failing
case no descriptor-map entry is created or changed (`noDescChange`),
though a repository-scoped `set` may first register a fresh empty leaf
cache. -/
theorem C3_invalid_input_behavior :
    ∀ (s : CacheState) (w : RepoView) (d : Digest) (v : Descriptor),
      (validDigest d = false →
        providerStat s d = .error .invalidDigest ∧
        (∀ i, w.repository = some i →
          viewStat s w d = .error .invalidDigest) ∧
        (w.repository = none → viewStat s w d = .error .blobUnknown) ∧
        providerSetDescriptor s d v = (s, some .invalidDigest) ∧
        (viewSetDescriptor s w d v).2.2 = some .invalidDigest ∧
        noDescChange s (viewSetDescriptor s w d v).1) ∧
      (validDigest d = true → validDescriptor v = false →
        (viewSetDescriptor s w d v).2.2 = some .invalidDescriptor ∧
        noDescChange s (viewSetDescriptor s w d v).1 ∧
        (s.global.find d = none →
          providerSetDescriptor s d v = (s, some .invalidDigest) ∨
          providerSetDescriptor s d v = (s, some .invalidDescriptor)) ∧
        (∀ u, s.global.find d = some u →
          providerSetDescriptor s d v = (s, none))) := by
  intro s w d v
  constructor
  · intro hd
    have hmfail : ∀ m : DescMap,
        (mapSetDescriptor m d v).2 = some .invalidDigest := fun m => by
      simp [mapSetDescriptor, hd]
    obtain ⟨hf1, hf2⟩ := viewSet_fail s w d v .invalidDigest hmfail
    refine ⟨?_, ?_, ?_, ?_, hf1, ?_⟩
    · simp [providerStat, mapStat, hd]
    · intro i hi
      simp [viewStat, hi, mapStat, hd]
    · intro hnone
      simp [viewStat, hnone]
    · exact providerSet_invalid_digest s d v hd
    · rw [hf2]
      exact repoEnsureBound_noDescChange s w
  · intro hd hv
    have hmfail : ∀ m : DescMap,
        (mapSetDescriptor m d v).2 = some .invalidDescriptor := fun m => by
      simp [mapSetDescriptor, hd, hv]
    obtain ⟨hf1, hf2⟩ := viewSet_fail s w d v .invalidDescriptor hmfail
    refine ⟨hf1, ?_, ?_, ?_⟩
    · rw [hf2]
      exact repoEnsureBound_noDescChange s w
    · intro hfnone
      rw [providerSet_of_find_none_bad_desc s d v hd hv hfnone]
      by_cases hc : d.algorithm ≠ v.digest.algorithm ∧ d ≠ v.digest
      · left
        simp [hc]
      · right
        simp [hc]
    · intro u hfu
      exact providerSet_of_find_some s d v u hd hfu

/-- Witness for the amended C3 at concrete inputs: malformed-digest stat
at the global scope and at an unbound view, and a malformed-descriptor
repository-scoped set. -/
theorem C3_witness :
    providerStat initState ⟨"", ""⟩ = .error .invalidDigest ∧
    viewStat initState ⟨"r", none⟩ ⟨"", ""⟩ = .error .blobUnknown ∧
    (viewSetDescriptor initState ⟨"r", none⟩ ⟨"sha256", "aa"⟩
        ⟨"m", 1, ⟨"", ""⟩⟩).2.2 = some .invalidDescriptor :=
  ⟨((C3_invalid_input_behavior initState ⟨"r", none⟩ ⟨"", ""⟩
      ⟨"m", 1, ⟨"sha256", "aa"⟩⟩).1 (by decide)).1,
   (((C3_invalid_input_behavior initState ⟨"r", none⟩ ⟨"", ""⟩
      ⟨"m", 1, ⟨"sha256", "aa"⟩⟩).1 (by decide)).2.2.1 rfl),
   (((C3_invalid_input_behavior initState ⟨"r", none⟩ ⟨"sha256", "aa"⟩
      ⟨"m", 1, ⟨"", ""⟩⟩).2 (by decide) (by decide)).1)⟩

/-- C4 as stated is false: the invariant is not preserved under every
reachable operation sequence.  One `set(global, D, V)` with
`D = sha256:aa` and `V.digest = sha256:bb` (same algorithm, different
value) is accepted and stores `V` under key `D`, producing a
same-algorithm entry whose value digest differs from its key. -/
theorem C4_counterexample :
    ¬ stateInv (run initWorld
        [Op.setGlobal ⟨"sha256", "aa"⟩ ⟨"m", 1, ⟨"sha256", "bb"⟩⟩]).state := by
  decide

/-- C4 amended: every leaf cache (global and per-repository) preserves the
invariant — a stored value's digest, when of the same algorithm as its
key, equals the key — under every operation sequence reachable through
the public interface in which each `SetDescriptor` call's descriptor
digest equals the requested digest whenever the two share an algorithm
(`opSameAlgOK`); an unrestricted same-algorithm aliasing write violates
it. -/
theorem C4_leaf_invariant_under_good_ops :
    ∀ ops : List Op, (∀ op ∈ ops, opSameAlgOK op) →
      stateInv (run initWorld ops).state := by
  intro ops hops
  refine stateInv_run initWorld ops ⟨leafInv_nil, ?_⟩ hops
  intro m hm
  simp [initWorld, initState] at hm

/-- Witness for the amended C4 on a concrete sequence: a global write, a
scoping call, a repository-scoped write through the new view, and a
cross-algorithm aliasing write, all satisfying the side condition. -/
theorem C4_witness :
    stateInv (run initWorld
        [Op.setGlobal ⟨"sha256", "aa"⟩ ⟨"m", 1, ⟨"sha256", "aa"⟩⟩,
         Op.scope "r",
         Op.setView 0 ⟨"sha256", "bb"⟩ ⟨"m", 2, ⟨"sha256", "bb"⟩⟩,
         Op.setGlobal ⟨"sha512", "cc"⟩ ⟨"m", 3, ⟨"sha256", "dd"⟩⟩]).state :=
  C4_leaf_invariant_under_good_ops
    [Op.setGlobal ⟨"sha256", "aa"⟩ ⟨"m", 1, ⟨"sha256", "aa"⟩⟩,
     Op.scope "r",
     Op.setView 0 ⟨"sha256", "bb"⟩ ⟨"m", 2, ⟨"sha256", "bb"⟩⟩,
     Op.setGlobal ⟨"sha512", "cc"⟩ ⟨"m", 3, ⟨"sha256", "dd"⟩⟩]
    (by decide)

/-- C5: repository isolation with global mirroring.  For any state and
view (well-formed: table indices and the view's captured index point into
the heap), a valid digest `D` fresh to the global cache, and a valid
descriptor `V`: `Vw.set(D, V)` succeeds, `Vw.stat(D)` (through the
updated view) returns `V`, `stat(global, D)` returns `V`, and for a
different, never-written repository `R2`, `scope_for_repository(R2)`
yields an unbound view whose `stat(D)` fails with `BlobUnknown`. -/
theorem C5_repository_isolation (s : CacheState) (w : RepoView) (d : Digest)
    (v : Descriptor) (r2 : String)
    (hwf : stateWF s = true) (hvw : viewWF s w = true)
    (hd : validDigest d = true) (hv : validDescriptor v = true)
    (hf : s.global.find d = none)
    (hr2 : validRepoName r2 = true) (hl2 : lookupRepo s r2 = none)
    (hne : r2 ≠ w.repo) :
    (viewSetDescriptor s w d v).2.2 = none ∧
      viewStat (viewSetDescriptor s w d v).1
        (viewSetDescriptor s w d v).2.1 d = .ok v ∧
      providerStat (viewSetDescriptor s w d v).1 d = .ok v ∧
      repositoryScoped (viewSetDescriptor s w d v).1 r2 = .ok ⟨r2, none⟩ ∧
      viewStat (viewSetDescriptor s w d v).1 ⟨r2, none⟩ d =
        .error .blobUnknown := by
  obtain ⟨h1, h2, h3, h4⟩ := viewSet_valid_facts s w d v hwf hvw hd hv
  have hrep := repoEnsureBound_repository s w
  refine ⟨h1, ?_, ?_, ?_, ?_⟩
  · rw [h2, viewStat_bound _ _ _ d hrep, h3]
    simp [mapStat, hd, DescMap.find_store_self]
  · rw [providerStat_valid _ d hd, h4 hf]
  · have hlook : lookupRepo (viewSetDescriptor s w d v).1 r2 = none := by
      show findRepo (viewSetDescriptor s w d v).1.repositories r2 = none
      rw [viewSet_repositories]
      rcases repoEnsureBound_repositories s w with hh | ⟨_, hh⟩
      · rw [hh]
        exact hl2
      · rw [hh]
        exact findRepo_append_ne _ _ _ _ hl2 hne
    simp [repositoryScoped, hr2, hlook]
  · simp [viewStat]

/-- Witness for C5: a fresh provider, the view for "r", a fresh valid
digest and descriptor, and the never-written repository "q". -/
theorem C5_witness :
    (viewSetDescriptor initState ⟨"r", none⟩ ⟨"sha256", "aa"⟩
        ⟨"m", 1, ⟨"sha256", "aa"⟩⟩).2.2 = none ∧
      viewStat (viewSetDescriptor initState ⟨"r", none⟩ ⟨"sha256", "aa"⟩
          ⟨"m", 1, ⟨"sha256", "aa"⟩⟩).1
        (viewSetDescriptor initState ⟨"r", none⟩ ⟨"sha256", "aa"⟩
          ⟨"m", 1, ⟨"sha256", "aa"⟩⟩).2.1 ⟨"sha256", "aa"⟩ =
        .ok ⟨"m", 1, ⟨"sha256", "aa"⟩⟩ ∧
      providerStat (viewSetDescriptor initState ⟨"r", none⟩ ⟨"sha256", "aa"⟩
          ⟨"m", 1, ⟨"sha256", "aa"⟩⟩).1 ⟨"sha256", "aa"⟩ =
        .ok ⟨"m", 1, ⟨"sha256", "aa"⟩⟩ ∧
      repositoryScoped (viewSetDescriptor initState ⟨"r", none⟩
          ⟨"sha256", "aa"⟩ ⟨"m", 1, ⟨"sha256", "aa"⟩⟩).1 "q" =
        .ok ⟨"q", none⟩ ∧
      viewStat (viewSetDescriptor initState ⟨"r", none⟩ ⟨"sha256", "aa"⟩
          ⟨"m", 1, ⟨"sha256", "aa"⟩⟩).1 ⟨"q", none⟩ ⟨"sha256", "aa"⟩ =
        .error .blobUnknown :=
  C5_repository_isolation initState ⟨"r", none⟩ ⟨"sha256", "aa"⟩
    ⟨"m", 1, ⟨"sha256", "aa"⟩⟩ "q" (by decide) (by decide) (by decide)
    (by decide) (by decide) (by decide) (by decide) (by decide)

/-- C9: a view captures its backing leaf-cache reference at creation
time.  For a repository `r` with no table entry, `scope_for_repository(r)`
hands out unbound views.  After one such view performs a successful
`SetDescriptor` (allocating and populating `r`'s leaf cache), another view
created earlier still answers `BlobUnknown` for every digest; only when
that view itself performs a `SetDescriptor` does it re-read the table,
adopt the same leaf cache (the same heap index), and subsequently see the
first view's write. -/
theorem C9_view_captures_creation_reference (s : CacheState) (r : String)
    (d d2 : Digest) (v v2 : Descriptor)
    (hwf : stateWF s = true) (hr : validRepoName r = true)
    (hl : lookupRepo s r = none)
    (hd : validDigest d = true) (hv : validDescriptor v = true)
    (hd2 : validDigest d2 = true) (hv2 : validDescriptor v2 = true)
    (hne : d ≠ d2) :
    repositoryScoped s r = .ok ⟨r, none⟩ ∧
    (viewSetDescriptor s ⟨r, none⟩ d v).2.2 = none ∧
    (∀ d' : Digest,
      viewStat (viewSetDescriptor s ⟨r, none⟩ d v).1 ⟨r, none⟩ d' =
        .error .blobUnknown) ∧
    (viewSetDescriptor (viewSetDescriptor s ⟨r, none⟩ d v).1 ⟨r, none⟩
        d2 v2).2.1 = (viewSetDescriptor s ⟨r, none⟩ d v).2.1 ∧
    (viewSetDescriptor (viewSetDescriptor s ⟨r, none⟩ d v).1 ⟨r, none⟩
        d2 v2).2.2 = none ∧
    viewStat (viewSetDescriptor (viewSetDescriptor s ⟨r, none⟩ d v).1
        ⟨r, none⟩ d2 v2).1
      (viewSetDescriptor (viewSetDescriptor s ⟨r, none⟩ d v).1 ⟨r, none⟩
        d2 v2).2.1 d = .ok v := by
  have hbA := repoEnsureBound_fresh s ⟨r, none⟩ rfl hl
  obtain ⟨hA1, hA2, hA3, _⟩ := viewSet_valid_facts s ⟨r, none⟩ d v hwf rfl hd hv
  rw [hbA] at hA2 hA3
  simp only [] at hA2 hA3
  have hview1 : (viewSetDescriptor s ⟨r, none⟩ d v).2.1 =
      ⟨r, some s.heap.length⟩ := hA2
  have hheap1 : heapGet (viewSetDescriptor s ⟨r, none⟩ d v).1.heap
      s.heap.length = [(d, v)] := by
    rw [hA3]
    simp [heapGet_append_len]
    rfl
  have hlook1 : lookupRepo (viewSetDescriptor s ⟨r, none⟩ d v).1 r =
      some s.heap.length := by
    show findRepo (viewSetDescriptor s ⟨r, none⟩ d v).1.repositories r =
      some s.heap.length
    rw [viewSet_repositories, hbA]
    exact findRepo_append_self _ _ _ hl
  have hwf1 : stateWF (viewSetDescriptor s ⟨r, none⟩ d v).1 = true :=
    stateWF_viewSet s ⟨r, none⟩ d v hwf
  have hbB := repoEnsureBound_of_lookup (viewSetDescriptor s ⟨r, none⟩ d v).1
    ⟨r, none⟩ s.heap.length rfl hlook1
  obtain ⟨hB1, hB2, hB3, _⟩ := viewSet_valid_facts
    (viewSetDescriptor s ⟨r, none⟩ d v).1 ⟨r, none⟩ d2 v2 hwf1 rfl hd2 hv2
  rw [hbB] at hB2 hB3
  simp only [] at hB2 hB3
  refine ⟨?_, hA1, ?_, ?_, hB1, ?_⟩
  · simp [repositoryScoped, hr, hl]
  · intro d'
    simp [viewStat]
  · rw [hB2, hview1]
  · have hrepB : ((viewSetDescriptor (viewSetDescriptor s ⟨r, none⟩ d v).1
        ⟨r, none⟩ d2 v2).2.1).repository = some s.heap.length := by
      rw [hB2]
    rw [viewStat_bound _ _ _ d hrepB, hB3, hheap1,
      mapStat, DescMap.find_store_ne _ d2 d v2 hne]
    simp [DescMap.find, hd]

/-- Witness for C9 on a fresh provider with repository "r" and two
distinct sha256 digests. -/
theorem C9_witness :
    repositoryScoped initState "r" = .ok ⟨"r", none⟩ ∧
    (viewSetDescriptor initState ⟨"r", none⟩ ⟨"sha256", "aa"⟩
        ⟨"m", 1, ⟨"sha256", "aa"⟩⟩).2.2 = none ∧
    (∀ d' : Digest,
      viewStat (viewSetDescriptor initState ⟨"r", none⟩ ⟨"sha256", "aa"⟩
          ⟨"m", 1, ⟨"sha256", "aa"⟩⟩).1 ⟨"r", none⟩ d' =
        .error .blobUnknown) ∧
    (viewSetDescriptor (viewSetDescriptor initState ⟨"r", none⟩
        ⟨"sha256", "aa"⟩ ⟨"m", 1, ⟨"sha256", "aa"⟩⟩).1 ⟨"r", none⟩
        ⟨"sha256", "bb"⟩ ⟨"m", 2, ⟨"sha256", "bb"⟩⟩).2.1 =
      (viewSetDescriptor initState ⟨"r", none⟩ ⟨"sha256", "aa"⟩
        ⟨"m", 1, ⟨"sha256", "aa"⟩⟩).2.1 ∧
    (viewSetDescriptor (viewSetDescriptor initState ⟨"r", none⟩
        ⟨"sha256", "aa"⟩ ⟨"m", 1, ⟨"sha256", "aa"⟩⟩).1 ⟨"r", none⟩
        ⟨"sha256", "bb"⟩ ⟨"m", 2, ⟨"sha256", "bb"⟩⟩).2.2 = none ∧
    viewStat (viewSetDescriptor (viewSetDescriptor initState ⟨"r", none⟩
        ⟨"sha256", "aa"⟩ ⟨"m", 1, ⟨"sha256", "aa"⟩⟩).1 ⟨"r", none⟩
        ⟨"sha256", "bb"⟩ ⟨"m", 2, ⟨"sha256", "bb"⟩⟩).1
      (viewSetDescriptor (viewSetDescriptor initState ⟨"r", none⟩
        ⟨"sha256", "aa"⟩ ⟨"m", 1, ⟨"sha256", "aa"⟩⟩).1 ⟨"r", none⟩
        ⟨"sha256", "bb"⟩ ⟨"m", 2, ⟨"sha256", "bb"⟩⟩).2.1 ⟨"sha256", "aa"⟩ =
      .ok ⟨"m", 1, ⟨"sha256", "aa"⟩⟩ :=
  C9_view_captures_creation_reference initState "r" ⟨"sha256", "aa"⟩
    ⟨"sha256", "bb"⟩ ⟨"m", 1, ⟨"sha256", "aa"⟩⟩ ⟨"m", 2, ⟨"sha256", "bb"⟩⟩
    (by decide) (by decide) (by decide) (by decide) (by decide) (by decide)
    (by decide) (by decide)

/-- C10: the repository scope and the global scope can disagree
permanently.  Starting from a fresh provider, a view for `r` sets `V1`
then `V2` (both valid, both with digest `D`, distinct) under `D`; both
calls succeed, the view's `stat(D)` returns `V2` (repository leaf cache
is last-write-wins) while `stat(global, D)` returns `V1` (global cache is
first-write-wins). -/
theorem C10_repo_last_write_global_first_write (r : String) (d : Digest)
    (v1 v2 : Descriptor) (hr : validRepoName r = true)
    (hd : validDigest d = true) (h1 : v1.digest = d) (h2 : v2.digest = d)
    (_hne : v1 ≠ v2) :
    repositoryScoped initState r = .ok ⟨r, none⟩ ∧
    (viewSetDescriptor initState ⟨r, none⟩ d v1).2.2 = none ∧
    (viewSetDescriptor (viewSetDescriptor initState ⟨r, none⟩ d v1).1
        (viewSetDescriptor initState ⟨r, none⟩ d v1).2.1 d v2).2.2 = none ∧
    viewStat (viewSetDescriptor (viewSetDescriptor initState ⟨r, none⟩
          d v1).1 (viewSetDescriptor initState ⟨r, none⟩ d v1).2.1 d v2).1
      (viewSetDescriptor (viewSetDescriptor initState ⟨r, none⟩ d v1).1
        (viewSetDescriptor initState ⟨r, none⟩ d v1).2.1 d v2).2.1 d =
      .ok v2 ∧
    providerStat (viewSetDescriptor (viewSetDescriptor initState ⟨r, none⟩
        d v1).1 (viewSetDescriptor initState ⟨r, none⟩ d v1).2.1 d v2).1 d =
      .ok v1 := by
  have hv1 : validDescriptor v1 = true := by
    simpa [validDescriptor, h1] using hd
  have hv2 : validDescriptor v2 = true := by
    simpa [validDescriptor, h2] using hd
  have hl0 : lookupRepo initState r = none := rfl
  have hbA := repoEnsureBound_fresh initState ⟨r, none⟩ rfl hl0
  obtain ⟨hA1, hA2, hA3, hA4⟩ :=
    viewSet_valid_facts initState ⟨r, none⟩ d v1 rfl rfl hd hv1
  rw [hbA] at hA2 hA3
  simp only [] at hA2 hA3
  have hview1 : (viewSetDescriptor initState ⟨r, none⟩ d v1).2.1 =
      ⟨r, some initState.heap.length⟩ := hA2
  have hglob1 : (viewSetDescriptor initState ⟨r, none⟩ d v1).1.global.find d =
      some v1 := hA4 rfl
  have hheap1 : heapGet (viewSetDescriptor initState ⟨r, none⟩ d v1).1.heap
      initState.heap.length = [(d, v1)] := by
    rw [hA3]
    simp [heapGet_append_len]
    rfl
  have hwf1 : stateWF (viewSetDescriptor initState ⟨r, none⟩ d v1).1 = true :=
    stateWF_viewSet initState ⟨r, none⟩ d v1 rfl
  have hbB := repoEnsureBound_of_some
    (viewSetDescriptor initState ⟨r, none⟩ d v1).1
    (viewSetDescriptor initState ⟨r, none⟩ d v1).2.1
    initState.heap.length (by rw [hview1])
  have hvwB : viewWF (viewSetDescriptor initState ⟨r, none⟩ d v1).1
      (viewSetDescriptor initState ⟨r, none⟩ d v1).2.1 = true := by
    simp only [viewWF, hview1]
    rw [viewSet_heap_length, hbA]
    simp [initState]
  obtain ⟨hB1, hB2, hB3, _⟩ := viewSet_valid_facts
    (viewSetDescriptor initState ⟨r, none⟩ d v1).1
    (viewSetDescriptor initState ⟨r, none⟩ d v1).2.1 d v2 hwf1 hvwB hd hv2
  rw [hbB] at hB2 hB3
  simp only [] at hB2 hB3
  refine ⟨?_, hA1, hB1, ?_, ?_⟩
  · simp [repositoryScoped, hr, lookupRepo, initState, findRepo]
  · have hrepB : ((viewSetDescriptor
        (viewSetDescriptor initState ⟨r, none⟩ d v1).1
        (viewSetDescriptor initState ⟨r, none⟩ d v1).2.1 d v2).2.1).repository =
        some initState.heap.length := by
      rw [hB2, hview1]
    rw [viewStat_bound _ _ _ d hrepB, hB3, hheap1]
    simp [DescMap.store, DescMap.find, mapStat, hd]
  · have hg2 : (viewSetDescriptor
        (viewSetDescriptor initState ⟨r, none⟩ d v1).1
        (viewSetDescriptor initState ⟨r, none⟩ d v1).2.1 d v2).1.global =
        (viewSetDescriptor initState ⟨r, none⟩ d v1).1.global :=
      viewSet_global_of_known _ _ d v2 v1 hd hglob1
    rw [providerStat_valid _ d hd, hg2, hglob1]

/-- Witness for C10 with repository "r", digest `sha256:aa`, and two
descriptors differing in size. -/
theorem C10_witness :
    repositoryScoped initState "r" = .ok ⟨"r", none⟩ ∧
    (viewSetDescriptor initState ⟨"r", none⟩ ⟨"sha256", "aa"⟩
        ⟨"m", 1, ⟨"sha256", "aa"⟩⟩).2.2 = none ∧
    (viewSetDescriptor (viewSetDescriptor initState ⟨"r", none⟩
        ⟨"sha256", "aa"⟩ ⟨"m", 1, ⟨"sha256", "aa"⟩⟩).1
      (viewSetDescriptor initState ⟨"r", none⟩ ⟨"sha256", "aa"⟩
        ⟨"m", 1, ⟨"sha256", "aa"⟩⟩).2.1 ⟨"sha256", "aa"⟩
      ⟨"m", 2, ⟨"sha256", "aa"⟩⟩).2.2 = none ∧
    viewStat (viewSetDescriptor (viewSetDescriptor initState ⟨"r", none⟩
        ⟨"sha256", "aa"⟩ ⟨"m", 1, ⟨"sha256", "aa"⟩⟩).1
      (viewSetDescriptor initState ⟨"r", none⟩ ⟨"sha256", "aa"⟩
        ⟨"m", 1, ⟨"sha256", "aa"⟩⟩).2.1 ⟨"sha256", "aa"⟩
      ⟨"m", 2, ⟨"sha256", "aa"⟩⟩).1
      (viewSetDescriptor (viewSetDescriptor initState ⟨"r", none⟩
        ⟨"sha256", "aa"⟩ ⟨"m", 1, ⟨"sha256", "aa"⟩⟩).1
      (viewSetDescriptor initState ⟨"r", none⟩ ⟨"sha256", "aa"⟩
        ⟨"m", 1, ⟨"sha256", "aa"⟩⟩).2.1 ⟨"sha256", "aa"⟩
      ⟨"m", 2, ⟨"sha256", "aa"⟩⟩).2.1 ⟨"sha256", "aa"⟩ =
      .ok ⟨"m", 2, ⟨"sha256", "aa"⟩⟩ ∧
    providerStat (viewSetDescriptor (viewSetDescriptor initState ⟨"r", none⟩
        ⟨"sha256", "aa"⟩ ⟨"m", 1, ⟨"sha256", "aa"⟩⟩).1
      (viewSetDescriptor initState ⟨"r", none⟩ ⟨"sha256", "aa"⟩
        ⟨"m", 1, ⟨"sha256", "aa"⟩⟩).2.1 ⟨"sha256", "aa"⟩
      ⟨"m", 2, ⟨"sha256", "aa"⟩⟩).1 ⟨"sha256", "aa"⟩ =
      .ok ⟨"m", 1, ⟨"sha256", "aa"⟩⟩ :=
  C10_repo_last_write_global_first_write "r" ⟨"sha256", "aa"⟩
    ⟨"m", 1, ⟨"sha256", "aa"⟩⟩ ⟨"m", 2, ⟨"sha256", "aa"⟩⟩
    (by decide) (by decide) (by decide) (by decide) (by decide)
